import Mathlib

/-!
Verification of the river-data-collector pipeline.

Shallow embedding of the Python sources:
  * `src/data/data_processor.py`  — `DataProcessor` (normalization, diff gate)
  * `src/data/graph_builder.py`   — `GraphBuilder` (connection map, relationships,
                                     Neo4j MERGE semantics)
  * `src/data/data_storage.py`    — `JsonDataStorage`, `SqlDataStorage`
  * `src/main.py`                 — the pipeline orchestrator, with injected
                                     collaborator failures

Coordinates are modelled as pairs of integers (lat, lon); the source compares
coordinates only by exact equality, so any type with decidable equality is a
faithful stand-in for the Python floats.
-/

set_option autoImplicit false

namespace RiverData

/-- A coordinate (lat, lon); compared by exact equality, as in the source. -/
abbrev Coord := Int × Int

/-- A processed record: the dict `{"id": ..., "geometry": ..., "name": ...}`
produced by `DataProcessor._process`. -/
structure Element where
  id : Nat
  geometry : List Coord
  name : Option String
deriving DecidableEq

/-- A raw OSM element as consumed by `DataProcessor.process_data`: a dict with a
`type` tag, an `id`, an optional `geometry` list and an optional `tags` dict
holding an optional `name`. -/
structure RawElement where
  type : String
  id : Nat
  geometry : Option (List Coord)
  tags : Option (Option String)
deriving DecidableEq

namespace DataProcessor

/-- Embeds `DataProcessor._extract_geometry`:
`element.get("geometry", []) if element["type"] == "way" else []`. -/
def _extract_geometry (e : RawElement) : List Coord :=
  if e.type = "way" then e.geometry.getD [] else []

/-- Embeds `DataProcessor._process`: build the processed dict with id, extracted
geometry and `element.get("tags", {}).get("name")`. -/
def _process (e : RawElement) : Element :=
  { id := e.id, geometry := _extract_geometry e, name := e.tags.getD none }

/-- Embeds `DataProcessor.process_data`: keep the elements whose `type` is `"way"`,
processing each; no other filtering happens. -/
def process_data : List RawElement → List Element
  | [] => []
  | e :: rest =>
    if e.type = "way" then _process e :: process_data rest
    else process_data rest

/-- Embeds `DataProcessor.is_data_changed`: `new_data != old_data`, where the old data
read back from the JSON file is `None` when the file is absent. -/
def is_data_changed (newData : List Element) (oldData : Option (List Element)) : Bool :=
  decide (some newData ≠ oldData)

end DataProcessor

namespace GraphBuilder

/-- Python `set.add` on a set modelled as a duplicate-free list. -/
def setInsert (s : List Nat) (i : Nat) : List Nat :=
  if i ∈ s then s else s ++ [i]

/-- The `defaultdict(set)` of `GraphBuilder._build_connection_map`, modelled as
an association list from coordinates to id-sets. -/
abbrev ConnMap := List (Coord × List Nat)

/-- Python `connection_map[c].add(i)` on the association-list model: update the entry
for key `c`, or append a fresh singleton entry (the defaultdict behaviour). -/
def addToMap : ConnMap → Coord → Nat → ConnMap
  | [], c, i => [(c, [i])]
  | (k, s) :: rest, c, i =>
    if k = c then (k, setInsert s i) :: rest
    else (k, s) :: addToMap rest c i

/-- One iteration of the loop in `GraphBuilder._build_connection_map`: insert
the element's id under its start coordinate `geometry[0]` and its end
coordinate `geometry[-1]`. Indexing an empty geometry raises `IndexError` in
the source, modelled as `none`. -/
def insertElement (m : ConnMap) (e : Element) : Option ConnMap :=
  match e.geometry.head?, e.geometry.getLast? with
  | some sp, some ep => some (addToMap (addToMap m sp e.id) ep e.id)
  | _, _ => none

/-- Embeds `GraphBuilder._build_connection_map`: the loop over the elements. -/
def _build_connection_map (elements : List Element) : Option ConnMap :=
  elements.foldlM insertElement []

/-- All index pairs `(l[i], l[j])` with `i < j`, as generated by the nested
comprehension in `GraphBuilder._generate_relationships`. -/
def pairsOf : List Nat → List (Nat × Nat)
  | [] => []
  | x :: xs => (xs.map fun y => (x, y)) ++ pairsOf xs

/-- Embeds `GraphBuilder._generate_relationships`: for every id-set of size `> 1` in
the connection map, emit all index pairs; a pair `(a, b)` stands for the dict
`{"from": a, "to": b}`. -/
def _generate_relationships (m : ConnMap) : List (Nat × Nat) :=
  (m.map fun kv => if 1 < kv.2.length then pairsOf kv.2 else []).flatten

/-- The state of the Neo4j sink: `Element` nodes (id, name) and directed
`CONNECTS_TO` relationships. -/
structure GraphState where
  nodes : List (Nat × Option String)
  rels : List (Nat × Nat)
deriving DecidableEq

/-- Embeds `GraphBuilder.cleanup`: `MATCH (n:Element) DETACH DELETE n` removes every
node and with it every relationship. -/
def cleanup (_g : GraphState) : GraphState := ⟨[], []⟩

/-- Cypher `MERGE (e:Element {id: i}) SET e.name = nm`: update the name of the
existing node with this id, or create the node. -/
def mergeNode (ns : List (Nat × Option String)) (i : Nat) (nm : Option String) :
    List (Nat × Option String) :=
  if ns.any fun p => p.1 = i then ns.map fun p => if p.1 = i then (p.1, nm) else p
  else ns ++ [(i, nm)]

/-- Embeds `GraphBuilder._create_nodes`: one `MERGE ... SET` per element. -/
def _create_nodes (g : GraphState) (elements : List Element) : GraphState :=
  { g with nodes := elements.foldl (fun ns e => mergeNode ns e.id e.name) g.nodes }

/-- Cypher `MERGE (a)-[:CONNECTS_TO]->(b)`: create the directed relationship
only when it is not already present. -/
def mergeRel (rs : List (Nat × Nat)) (p : Nat × Nat) : List (Nat × Nat) :=
  if p ∈ rs then rs else rs ++ [p]

/-- Whether the sink holds an `Element` node with the given id. -/
def hasNode (ns : List (Nat × Option String)) (i : Nat) : Bool :=
  ns.any fun p => p.1 = i

/-- One `UNWIND` iteration of the relationship query: `MATCH` both endpoints by
id (no row, hence no effect, when either node is missing), then `MERGE` the
relationship in both directions. -/
def insertRel (ns : List (Nat × Option String)) (rs : List (Nat × Nat))
    (p : Nat × Nat) : List (Nat × Nat) :=
  if hasNode ns p.1 && hasNode ns p.2 then mergeRel (mergeRel rs (p.1, p.2)) (p.2, p.1)
  else rs

/-- Embeds `GraphBuilder._create_relationships`: build the connection map, generate
the relationship dicts and run the `MERGE` query over them. -/
def _create_relationships (g : GraphState) (elements : List Element) :
    Option GraphState :=
  match _build_connection_map elements with
  | none => none
  | some cm =>
    let relationships := _generate_relationships cm
    some { g with rels := relationships.foldl (insertRel g.nodes) g.rels }

/-- Embeds `GraphBuilder.build_graph`: `_create_nodes` then `_create_relationships`
(the `graph_name` argument is unused by both). -/
def build_graph (g : GraphState) (elements : List Element) : Option GraphState :=
  _create_relationships (_create_nodes g elements) elements

end GraphBuilder

namespace SqlDataStorage

/-- A row of the target table `(id, name, geometry)`. -/
structure SqlRow where
  id : Nat
  name : Option String
  geometry : String
deriving DecidableEq

/-- Embeds `SqlDataStorage._create_linestring` on the dict-shaped coordinates:
`f"{coord['lon']} {coord['lat']}"`, joined and wrapped in `LINESTRING(...)`. -/
def _create_linestring (coordinates : List Coord) : String :=
  "LINESTRING(" ++
    String.intercalate ", " (coordinates.map fun c => toString c.2 ++ " " ++ toString c.1) ++
    ")"

/-- The `INSERT ... ON CONFLICT (id) DO UPDATE` upsert: replace the row with a
matching id, or append. -/
def upsertRow (rows : List SqlRow) (r : SqlRow) : List SqlRow :=
  if rows.any fun q => q.id = r.id then rows.map fun q => if q.id = r.id then r else q
  else rows ++ [r]

/-- Embeds `SqlDataStorage.save_data`: one upsert per processed element. -/
def save_data (rows : List SqlRow) (data : List Element) : List SqlRow :=
  data.foldl (fun rs e => upsertRow rs ⟨e.id, e.name, _create_linestring e.geometry⟩) rows

/-- Embeds `SqlDataStorage.cleanup`: `TRUNCATE TABLE` empties the table whatever it
held. -/
def cleanup (_rows : List SqlRow) : List SqlRow := []

end SqlDataStorage

/-- The Python exception classes that can cross the collaborator boundaries:
the five application exceptions from `utils/exceptions.py` plus the library
exceptions the boundaries may encounter. -/
inductive PyExc
  | configError | valueError | geocodingError | osmApiError | databaseError
  | graphBuilderError | geocoderTimedOut | geocoderUnavailable | geocoderOther
  | requestException | osError | jsonDecodeError | psycopg2Error | neo4jError
  | otherError
deriving DecidableEq

namespace Geocoder

/-- Exception translation of `Geocoder.get_region_bbox`: only
`(GeocoderTimedOut, GeocoderUnavailable)` are caught and re-raised as
`GeocodingError`; every other exception propagates unchanged. -/
def wrapError (e : PyExc) : PyExc :=
  if e = .geocoderTimedOut ∨ e = .geocoderUnavailable then .geocodingError else e

end Geocoder

namespace OSMDownloader

/-- Exception translation of `OSMDownloader.download_data`: only
`requests.RequestException` is caught and re-raised as `OsmApiError`. -/
def wrapError (e : PyExc) : PyExc :=
  if e = .requestException then .osmApiError else e

end OSMDownloader

/-- Exception translation of `SqlDataStorage.save_data`/`cleanup`: the bare
`except Exception` turns every failure into `DatabaseError`. -/
def SqlDataStorage.wrapError (_e : PyExc) : PyExc := .databaseError

/-- Exception translation of `GraphBuilder.build_graph`/`cleanup`: the bare
`except Exception` turns every failure into `GraphBuilderError`. -/
def GraphBuilder.wrapError (_e : PyExc) : PyExc := .graphBuilderError

/-- Exception translation of `JsonDataStorage.save_data`/`get_data`: there is
no `try` block, so every failure propagates unchanged. -/
def JsonDataStorage.wrapError (e : PyExc) : PyExc := e

/-- The error kinds reported by the distinct `except` clauses of `main`. -/
inductive FailKind
  | config | geocoding | osmApi | database | graphB | unexpected
deriving DecidableEq

/-- Terminal outcome of one `main` run. -/
inductive Outcome
  | success
  | skippedUnchanged
  | failed (k : FailKind)
deriving DecidableEq

/-- The `except` ladder of `main`: map the raised exception to the handler that
catches it; anything unnamed falls to `except Exception`. -/
def dispatch : PyExc → FailKind
  | .configError => .config
  | .geocodingError => .geocoding
  | .osmApiError => .osmApi
  | .databaseError => .database
  | .graphBuilderError => .graphB
  | _ => .unexpected

/-- The observable pipeline steps of `main`, in program order. -/
inductive Step
  | validateS | geocodeS | downloadS | processS | getDataS | jsonSaveS
  | sqlCleanupS | sqlSaveS | graphCleanupS | graphBuildS
deriving DecidableEq

/-- One run's collaborator behaviour: for each boundary call the underlying
failure it hits (`none` = it succeeds), together with the values the
successful calls return and the initial states of the three stores. -/
structure Env where
  validateErr : Option PyExc
  geocodeErr : Option PyExc
  downloadErr : Option PyExc
  rawData : List RawElement
  getDataErr : Option PyExc
  snapshot0 : Option (List Element)
  jsonSaveErr : Option PyExc
  sqlCleanupErr : Option PyExc
  sqlSaveErr : Option PyExc
  graphCleanupErr : Option PyExc
  graphBuildErr : Option PyExc
  sqlRows0 : List SqlDataStorage.SqlRow
  graph0 : GraphBuilder.GraphState

/-- What one `main` run leaves behind: the executed steps, the outcome, and
the final states of the snapshot file, the SQL table and the Neo4j graph. -/
structure RunResult where
  trace : List Step
  outcome : Outcome
  snapshot : Option (List Element)
  sqlRows : List SqlDataStorage.SqlRow
  graph : GraphBuilder.GraphState
deriving DecidableEq

/-- The pipeline of `main` (`src/main.py`): validate, geocode, download,
process, diff-gate against the JSON snapshot, then save JSON, truncate+insert
SQL, and clean+rebuild the graph; each failure is dispatched to its `except`
clause and terminates the run. -/
def runMain (env : Env) : RunResult :=
  match env.validateErr with
  | some e =>
    ⟨[.validateS], .failed (dispatch e), env.snapshot0, env.sqlRows0, env.graph0⟩
  | none =>
  match env.geocodeErr with
  | some e =>
    ⟨[.validateS, .geocodeS], .failed (dispatch (Geocoder.wrapError e)),
      env.snapshot0, env.sqlRows0, env.graph0⟩
  | none =>
  match env.downloadErr with
  | some e =>
    ⟨[.validateS, .geocodeS, .downloadS],
      .failed (dispatch (OSMDownloader.wrapError e)),
      env.snapshot0, env.sqlRows0, env.graph0⟩
  | none =>
  let processed := DataProcessor.process_data env.rawData
  match env.getDataErr with
  | some e =>
    ⟨[.validateS, .geocodeS, .downloadS, .processS, .getDataS],
      .failed (dispatch (JsonDataStorage.wrapError e)),
      env.snapshot0, env.sqlRows0, env.graph0⟩
  | none =>
  if DataProcessor.is_data_changed processed env.snapshot0 then
    match env.jsonSaveErr with
    | some e =>
      ⟨[.validateS, .geocodeS, .downloadS, .processS, .getDataS, .jsonSaveS],
        .failed (dispatch (JsonDataStorage.wrapError e)),
        env.snapshot0, env.sqlRows0, env.graph0⟩
    | none =>
    let snap1 := some processed
    match env.sqlCleanupErr with
    | some e =>
      ⟨[.validateS, .geocodeS, .downloadS, .processS, .getDataS, .jsonSaveS,
          .sqlCleanupS],
        .failed (dispatch (SqlDataStorage.wrapError e)),
        snap1, env.sqlRows0, env.graph0⟩
    | none =>
    let rows1 := SqlDataStorage.cleanup env.sqlRows0
    match env.sqlSaveErr with
    | some e =>
      ⟨[.validateS, .geocodeS, .downloadS, .processS, .getDataS, .jsonSaveS,
          .sqlCleanupS, .sqlSaveS],
        .failed (dispatch (SqlDataStorage.wrapError e)),
        snap1, rows1, env.graph0⟩
    | none =>
    let rows2 := SqlDataStorage.save_data rows1 processed
    match env.graphCleanupErr with
    | some e =>
      ⟨[.validateS, .geocodeS, .downloadS, .processS, .getDataS, .jsonSaveS,
          .sqlCleanupS, .sqlSaveS, .graphCleanupS],
        .failed (dispatch (GraphBuilder.wrapError e)),
        snap1, rows2, env.graph0⟩
    | none =>
    let g1 := GraphBuilder.cleanup env.graph0
    match env.graphBuildErr with
    | some e =>
      ⟨[.validateS, .geocodeS, .downloadS, .processS, .getDataS, .jsonSaveS,
          .sqlCleanupS, .sqlSaveS, .graphCleanupS, .graphBuildS],
        .failed (dispatch (GraphBuilder.wrapError e)),
        snap1, rows2, g1⟩
    | none =>
    match GraphBuilder.build_graph g1 processed with
    | none =>
      ⟨[.validateS, .geocodeS, .downloadS, .processS, .getDataS, .jsonSaveS,
          .sqlCleanupS, .sqlSaveS, .graphCleanupS, .graphBuildS],
        .failed (dispatch (GraphBuilder.wrapError .otherError)),
        snap1, rows2, g1⟩
    | some g2 =>
      ⟨[.validateS, .geocodeS, .downloadS, .processS, .getDataS, .jsonSaveS,
          .sqlCleanupS, .sqlSaveS, .graphCleanupS, .graphBuildS],
        .success, snap1, rows2, g2⟩
  else
    ⟨[.validateS, .geocodeS, .downloadS, .processS, .getDataS],
      .skippedUnchanged, env.snapshot0, env.sqlRows0, env.graph0⟩

/-- The `sync` step for the relational sink, as called by `main` (lines 68–71):
`sql_storage.cleanup()` followed by `sql_storage.save_data(processed_data)`. -/
def sqlSync (rows : List SqlDataStorage.SqlRow) (data : List Element) :
    List SqlDataStorage.SqlRow :=
  SqlDataStorage.save_data (SqlDataStorage.cleanup rows) data

/-- The `sync` step for the graph sink, as called by `main` (lines 73–75):
`graph_builder.cleanup()` followed by `graph_builder.build_graph(...)`. -/
def graphSync (g : GraphBuilder.GraphState) (data : List Element) :
    Option GraphBuilder.GraphState :=
  GraphBuilder.build_graph (GraphBuilder.cleanup g) data

/-- A coordinate is an endpoint of a record when it is its first or last
geometry point. -/
def isEndpoint (c : Coord) (e : Element) : Prop :=
  e.geometry.head? = some c ∨ e.geometry.getLast? = some c

/-- Two ids appear together in some generated relationship dict (in either
role). -/
def appearsTogether (a b : Nat) (rels : List (Nat × Nat)) : Prop :=
  (a, b) ∈ rels ∨ (b, a) ∈ rels

/-- The connection map holds id `a` under coordinate key `c`. -/
def MapHas (m : GraphBuilder.ConnMap) (c : Coord) (a : Nat) : Prop :=
  ∃ s, (c, s) ∈ m ∧ a ∈ s

/-- The five named application exceptions of `utils/exceptions.py`. -/
def isNamedAppError : PyExc → Bool
  | .configError | .geocodingError | .osmApiError | .databaseError
  | .graphBuilderError => true
  | _ => false

/-! Concrete inputs used by the per-claim witnesses and counterexamples. -/

/-- C1: a run whose relational cleanup hits a `psycopg2` error after the
snapshot file has already been rewritten. -/
def envC1 : Env :=
  { validateErr := none, geocodeErr := none, downloadErr := none,
    rawData := [⟨"way", 1, some [(0, 0), (1, 1)], none⟩],
    getDataErr := none, snapshot0 := some [⟨2, [(5, 5), (6, 6)], none⟩],
    jsonSaveErr := none, sqlCleanupErr := some .psycopg2Error,
    sqlSaveErr := none, graphCleanupErr := none, graphBuildErr := none,
    sqlRows0 := [], graph0 := ⟨[], []⟩ }

/-- C1 amended-claim witness: a run failing at the relational insert step. -/
def envC1b : Env :=
  { validateErr := none, geocodeErr := none, downloadErr := none,
    rawData := [⟨"way", 3, some [(0, 0), (1, 1)], none⟩],
    getDataErr := none, snapshot0 := none,
    jsonSaveErr := none, sqlCleanupErr := none,
    sqlSaveErr := some .psycopg2Error, graphCleanupErr := none,
    graphBuildErr := none, sqlRows0 := [], graph0 := ⟨[], []⟩ }

/-- C5 witness: a run whose relational cleanup fails. -/
def envC5 : Env :=
  { validateErr := none, geocodeErr := none, downloadErr := none,
    rawData := [⟨"way", 1, some [(0, 0), (1, 1)], none⟩],
    getDataErr := none, snapshot0 := none,
    jsonSaveErr := none, sqlCleanupErr := some .psycopg2Error,
    sqlSaveErr := none, graphCleanupErr := none, graphBuildErr := none,
    sqlRows0 := [], graph0 := ⟨[], []⟩ }

/-- C10 witness: a first run (no snapshot file) whose download yields no
`way` elements, so the normalized collection is empty. -/
def envC10 : Env :=
  { validateErr := none, geocodeErr := none, downloadErr := none,
    rawData := [⟨"node", 9, none, none⟩],
    getDataErr := none, snapshot0 := none,
    jsonSaveErr := none, sqlCleanupErr := none,
    sqlSaveErr := none, graphCleanupErr := none, graphBuildErr := none,
    sqlRows0 := [⟨5, none, "LINESTRING()"⟩], graph0 := ⟨[(5, none)], []⟩ }

/-- C2 witness records: the spec scenario `A = [(0,0),(1,1)]`,
`B = [(1,1),(2,2)]`. -/
def elemA : Element := ⟨1, [(0, 0), (1, 1)], none⟩

/-- Second record of the C2 witness scenario. -/
def elemB : Element := ⟨2, [(1, 1), (2, 2)], none⟩

/-- The connection map built from `[elemA, elemB]`. -/
def mapAB : GraphBuilder.ConnMap :=
  [((0, 0), [1]), ((1, 1), [1, 2]), ((2, 2), [2])]

/-- C3 witness records: a degenerate single-point geometry plus a record
sharing that point. -/
def elemC : Element := ⟨1, [(0, 0)], none⟩

/-- Second record of the C3 witness scenario. -/
def elemD : Element := ⟨2, [(0, 0), (1, 1)], none⟩

/-- The connection map built from `[elemC, elemD]`. -/
def mapCD : GraphBuilder.ConnMap := [((0, 0), [1, 2]), ((1, 1), [2])]

/-- C4 witness records: two records sharing both endpoint coordinates. -/
def elemE : Element := ⟨1, [(0, 0), (1, 1)], none⟩

/-- Second record of the C4 witness scenario. -/
def elemF : Element := ⟨2, [(0, 0), (1, 1)], none⟩

/-- The connection map built from `[elemE, elemF]`. -/
def mapEF : GraphBuilder.ConnMap := [((0, 0), [1, 2]), ((1, 1), [1, 2])]

/-- The graph state built from `[elemE, elemF]`: one deduplicated undirected
edge, materialized as two directed relationships. -/
def graphEF : GraphBuilder.GraphState :=
  ⟨[(1, none), (2, none)], [(1, 2), (2, 1)]⟩

/-! ### Theorems -/

namespace GraphBuilder

theorem mem_setInsert {s : List Nat} {i a : Nat} :
    a ∈ setInsert s i ↔ a ∈ s ∨ a = i := by
  unfold setInsert
  split
  · next h =>
    constructor
    · exact fun ha => Or.inl ha
    · rintro (ha | rfl)
      · exact ha
      · exact h
  · simp

theorem nodup_setInsert {s : List Nat} (h : s.Nodup) (i : Nat) :
    (setInsert s i).Nodup := by
  unfold setInsert
  split
  · exact h
  · next hni =>
    rw [List.nodup_append]
    exact ⟨h, List.nodup_singleton i,
      fun a ha hai => hni ((List.mem_singleton.1 hai) ▸ ha)⟩

theorem MapHas_nil {c : Coord} {a : Nat} : ¬ RiverData.MapHas [] c a := by
  rintro ⟨s, hs, _⟩
  cases hs

theorem MapHas_cons {k : Coord} {s : List Nat} {m : ConnMap} {c : Coord} {a : Nat} :
    RiverData.MapHas ((k, s) :: m) c a ↔ (c = k ∧ a ∈ s) ∨ RiverData.MapHas m c a := by
  constructor
  · rintro ⟨t, ht, hat⟩
    rcases List.mem_cons.1 ht with h | h
    · rw [Prod.mk.injEq] at h
      exact Or.inl ⟨h.1, h.2 ▸ hat⟩
    · exact Or.inr ⟨t, h, hat⟩
  · rintro (⟨rfl, ha⟩ | ⟨t, ht, hat⟩)
    · exact ⟨s, List.mem_cons_self _ _, ha⟩
    · exact ⟨t, List.mem_cons_of_mem _ ht, hat⟩

theorem MapHas_addToMap {m : ConnMap} {c : Coord} {i : Nat} {c' : Coord} {a : Nat} :
    RiverData.MapHas (addToMap m c i) c' a ↔
      RiverData.MapHas m c' a ∨ (c' = c ∧ a = i) := by
  induction m with
  | nil =>
    rw [addToMap, MapHas_cons]
    simp [MapHas_nil]
  | cons kv rest ih =>
    obtain ⟨k, s⟩ := kv
    by_cases hk : k = c
    · subst hk
      rw [addToMap, if_pos rfl, MapHas_cons, MapHas_cons, mem_setInsert]
      tauto
    · rw [addToMap, if_neg hk, MapHas_cons, MapHas_cons, ih]
      tauto

theorem mem_keys_addToMap {m : ConnMap} {c : Coord} {i : Nat} {c' : Coord} :
    c' ∈ (addToMap m c i).map Prod.fst ↔ c' ∈ m.map Prod.fst ∨ c' = c := by
  induction m with
  | nil => simp [addToMap]
  | cons kv rest ih =>
    obtain ⟨k, s⟩ := kv
    by_cases hk : k = c
    · subst hk
      simp [addToMap]
      tauto
    · rw [addToMap, if_neg hk]
      simp only [List.map_cons, List.mem_cons, ih]
      tauto

theorem keys_nodup_addToMap {m : ConnMap} (h : (m.map Prod.fst).Nodup)
    (c : Coord) (i : Nat) : ((addToMap m c i).map Prod.fst).Nodup := by
  induction m with
  | nil => simp [addToMap]
  | cons kv rest ih =>
    obtain ⟨k, s⟩ := kv
    rw [List.map_cons, List.nodup_cons] at h
    by_cases hk : k = c
    · subst hk
      rw [addToMap, if_pos rfl, List.map_cons, List.nodup_cons]
      exact h
    · rw [addToMap, if_neg hk, List.map_cons, List.nodup_cons]
      refine ⟨fun hmem => ?_, ih h.2⟩
      rcases mem_keys_addToMap.1 hmem with hmem | rfl
      · exact h.1 hmem
      · exact hk rfl

theorem values_nodup_addToMap {m : ConnMap} (h : ∀ kv ∈ m, kv.2.Nodup)
    (c : Coord) (i : Nat) : ∀ kv ∈ addToMap m c i, kv.2.Nodup := by
  induction m with
  | nil =>
    intro kv hkv
    rw [addToMap] at hkv
    rcases List.mem_cons.1 hkv with rfl | h'
    · exact List.nodup_singleton i
    · cases h'
  | cons kv₀ rest ih =>
    obtain ⟨k, s⟩ := kv₀
    intro kv hkv
    by_cases hk : k = c
    · subst hk
      rw [addToMap, if_pos rfl] at hkv
      rcases List.mem_cons.1 hkv with rfl | h'
      · exact nodup_setInsert (h (k, s) (List.mem_cons_self _ _)) i
      · exact h kv (List.mem_cons_of_mem _ h')
    · rw [addToMap, if_neg hk] at hkv
      rcases List.mem_cons.1 hkv with rfl | h'
      · exact h (k, s) (List.mem_cons_self _ _)
      · exact ih (fun kv' hkv' => h kv' (List.mem_cons_of_mem _ hkv')) kv h'

theorem exists_mem_cons {α : Type _} {e : α} {l : List α} {P : α → Prop} :
    (∃ x ∈ e :: l, P x) ↔ P e ∨ ∃ x ∈ l, P x := by
  constructor
  · rintro ⟨x, hx, hP⟩
    rcases List.mem_cons.1 hx with rfl | hx'
    · exact Or.inl hP
    · exact Or.inr ⟨x, hx', hP⟩
  · rintro (hP | ⟨x, hx, hP⟩)
    · exact ⟨e, List.mem_cons_self _ _, hP⟩
    · exact ⟨x, List.mem_cons_of_mem _ hx, hP⟩

theorem insertElement_eq {m m' : ConnMap} {e : Element}
    (h : insertElement m e = some m') :
    ∃ sp ep, e.geometry.head? = some sp ∧ e.geometry.getLast? = some ep ∧
      m' = addToMap (addToMap m sp e.id) ep e.id := by
  unfold insertElement at h
  rcases hsp : e.geometry.head? with _ | sp <;> rw [hsp] at h
  · cases h
  · rcases hep : e.geometry.getLast? with _ | ep <;> rw [hep] at h
    · cases h
    · exact ⟨sp, ep, rfl, rfl, (Option.some.inj h).symm⟩

theorem MapHas_insertElement {m m₁ : ConnMap} {e : Element}
    (h : insertElement m e = some m₁) {c : Coord} {a : Nat} :
    RiverData.MapHas m₁ c a ↔
      RiverData.MapHas m c a ∨ (e.id = a ∧ RiverData.isEndpoint c e) := by
  obtain ⟨sp, ep, hsp, hep, rfl⟩ := insertElement_eq h
  rw [MapHas_addToMap, MapHas_addToMap]
  unfold RiverData.isEndpoint
  rw [hsp, hep]
  constructor
  · rintro ((hm | ⟨rfl, rfl⟩) | ⟨rfl, rfl⟩)
    · exact Or.inl hm
    · exact Or.inr ⟨rfl, Or.inl rfl⟩
    · exact Or.inr ⟨rfl, Or.inr rfl⟩
  · rintro (hm | ⟨rfl, h' | h'⟩)
    · exact Or.inl (Or.inl hm)
    · obtain rfl := Option.some.inj h'
      exact Or.inl (Or.inr ⟨rfl, rfl⟩)
    · obtain rfl := Option.some.inj h'
      exact Or.inr ⟨rfl, rfl⟩

theorem MapHas_foldlM {els : List Element} {m₀ m : ConnMap}
    (h : List.foldlM insertElement m₀ els = some m) {c : Coord} {a : Nat} :
    RiverData.MapHas m c a ↔
      RiverData.MapHas m₀ c a ∨ ∃ e ∈ els, e.id = a ∧ RiverData.isEndpoint c e := by
  induction els generalizing m₀ with
  | nil =>
    rw [List.foldlM_nil] at h
    obtain rfl := Option.some.inj h
    simp
  | cons e rest ih =>
    rw [List.foldlM_cons] at h
    rcases he : insertElement m₀ e with _ | m₁ <;> rw [he] at h
    · cases h
    · rw [ih h, MapHas_insertElement he, exists_mem_cons]
      tauto

theorem MapHas_build {els : List Element} {m : ConnMap}
    (h : _build_connection_map els = some m) {c : Coord} {a : Nat} :
    RiverData.MapHas m c a ↔ ∃ e ∈ els, e.id = a ∧ RiverData.isEndpoint c e := by
  rw [MapHas_foldlM h]
  simp [MapHas_nil]

theorem build_invariants_aux {els : List Element} {m₀ m : ConnMap}
    (h : List.foldlM insertElement m₀ els = some m)
    (hk : (m₀.map Prod.fst).Nodup) (hv : ∀ kv ∈ m₀, kv.2.Nodup) :
    (m.map Prod.fst).Nodup ∧ ∀ kv ∈ m, kv.2.Nodup := by
  induction els generalizing m₀ with
  | nil =>
    rw [List.foldlM_nil] at h
    obtain rfl := Option.some.inj h
    exact ⟨hk, hv⟩
  | cons e rest ih =>
    rw [List.foldlM_cons] at h
    rcases he : insertElement m₀ e with _ | m₁ <;> rw [he] at h
    · cases h
    · obtain ⟨sp, ep, _, _, rfl⟩ := insertElement_eq he
      exact ih h (keys_nodup_addToMap (keys_nodup_addToMap hk _ _) _ _)
        (values_nodup_addToMap (values_nodup_addToMap hv _ _) _ _)

theorem build_invariants {els : List Element} {m : ConnMap}
    (h : _build_connection_map els = some m) :
    (m.map Prod.fst).Nodup ∧ ∀ kv ∈ m, kv.2.Nodup :=
  build_invariants_aux h (by simp) (by simp)

theorem mem_pairsOf {l : List Nat} {p : Nat × Nat} (h : p ∈ pairsOf l) :
    p.1 ∈ l ∧ p.2 ∈ l := by
  induction l with
  | nil => cases h
  | cons x xs ih =>
    rw [pairsOf] at h
    rcases List.mem_append.1 h with h' | h'
    · obtain ⟨y, hy, rfl⟩ := List.mem_map.1 h'
      exact ⟨List.mem_cons_self _ _, List.mem_cons_of_mem _ hy⟩
    · obtain ⟨h1, h2⟩ := ih h'
      exact ⟨List.mem_cons_of_mem _ h1, List.mem_cons_of_mem _ h2⟩

theorem ne_of_mem_pairsOf {l : List Nat} (hl : l.Nodup) {p : Nat × Nat}
    (h : p ∈ pairsOf l) : p.1 ≠ p.2 := by
  induction l with
  | nil => cases h
  | cons x xs ih =>
    rw [List.nodup_cons] at hl
    rw [pairsOf] at h
    rcases List.mem_append.1 h with h' | h'
    · obtain ⟨y, hy, rfl⟩ := List.mem_map.1 h'
      intro he
      have hxy : x = y := he
      subst hxy
      exact hl.1 hy
    · exact ih hl.2 h'

theorem pairsOf_complete {l : List Nat} {a b : Nat} (ha : a ∈ l) (hb : b ∈ l)
    (hab : a ≠ b) : (a, b) ∈ pairsOf l ∨ (b, a) ∈ pairsOf l := by
  induction l with
  | nil => cases ha
  | cons x xs ih =>
    rw [pairsOf]
    rcases List.mem_cons.1 ha with rfl | ha' <;> rcases List.mem_cons.1 hb with rfl | hb'
    · exact absurd rfl hab
    · exact Or.inl (List.mem_append_left _ (List.mem_map_of_mem _ hb'))
    · exact Or.inr (List.mem_append_left _ (List.mem_map_of_mem _ ha'))
    · rcases ih ha' hb' with h | h
      · exact Or.inl (List.mem_append_right _ h)
      · exact Or.inr (List.mem_append_right _ h)

theorem one_lt_length_of_two_mem {s : List Nat} {a b : Nat} (ha : a ∈ s)
    (hb : b ∈ s) (h : a ≠ b) : 1 < s.length := by
  cases s with
  | nil => cases ha
  | cons x xs =>
    cases xs with
    | nil =>
      rw [List.mem_singleton] at ha hb
      exact absurd (ha.trans hb.symm) h
    | cons y ys =>
      simp only [List.length_cons]
      omega

theorem eq_snd_of_keys_nodup {l : ConnMap} (h : (l.map Prod.fst).Nodup)
    {c : Coord} {s₁ s₂ : List Nat} (h₁ : (c, s₁) ∈ l) (h₂ : (c, s₂) ∈ l) :
    s₁ = s₂ := by
  induction l with
  | nil => cases h₁
  | cons kv rest ih =>
    obtain ⟨k, s⟩ := kv
    rw [List.map_cons, List.nodup_cons] at h
    rcases List.mem_cons.1 h₁ with e₁ | m₁ <;> rcases List.mem_cons.1 h₂ with e₂ | m₂
    · rw [Prod.mk.injEq] at e₁ e₂
      rw [e₁.2, e₂.2]
    · rw [Prod.mk.injEq] at e₁
      have hmem : c ∈ rest.map Prod.fst := List.mem_map_of_mem Prod.fst m₂
      rw [e₁.1] at hmem
      exact absurd hmem h.1
    · rw [Prod.mk.injEq] at e₂
      have hmem : c ∈ rest.map Prod.fst := List.mem_map_of_mem Prod.fst m₁
      rw [e₂.1] at hmem
      exact absurd hmem h.1
    · exact ih h.2 m₁ m₂

theorem mem_generate {m : ConnMap} {p : Nat × Nat} :
    p ∈ _generate_relationships m ↔
      ∃ kv ∈ m, 1 < kv.2.length ∧ p ∈ pairsOf kv.2 := by
  unfold _generate_relationships
  rw [List.mem_flatten]
  constructor
  · rintro ⟨l, hl, hp⟩
    obtain ⟨kv, hkv, rfl⟩ := List.mem_map.1 hl
    by_cases hlen : 1 < kv.2.length
    · exact ⟨kv, hkv, hlen, by simpa [hlen] using hp⟩
    · simp [hlen] at hp
  · rintro ⟨kv, hkv, hlen, hp⟩
    exact ⟨pairsOf kv.2, List.mem_map.2 ⟨kv, hkv, by simp [hlen]⟩, hp⟩

theorem rel_endpoints {m : ConnMap} {p : Nat × Nat}
    (hp : p ∈ _generate_relationships m) :
    ∃ c, RiverData.MapHas m c p.1 ∧ RiverData.MapHas m c p.2 := by
  rw [mem_generate] at hp
  obtain ⟨⟨c, s⟩, hkv, _, hps⟩ := hp
  obtain ⟨h1, h2⟩ := mem_pairsOf hps
  exact ⟨c, ⟨s, hkv, h1⟩, ⟨s, hkv, h2⟩⟩

end GraphBuilder

/-- C2: for records with non-empty geometries and pairwise distinct ids, two
distinct ids appear together in some generated relationship if and only if
their records share a first-or-last coordinate under exact equality; in
particular all records meeting at one shared coordinate are pairwise
connected, so the pairs generated for such a k-way junction are exactly all
C(k,2) unordered pairs. -/
theorem endpoint_grouping (els : List Element) (m : GraphBuilder.ConnMap)
    (hb : GraphBuilder._build_connection_map els = some m)
    (hids : (els.map Element.id).Nodup) :
    ∀ ea ∈ els, ∀ eb ∈ els, ea.id ≠ eb.id →
      (appearsTogether ea.id eb.id (GraphBuilder._generate_relationships m) ↔
        ∃ c, isEndpoint c ea ∧ isEndpoint c eb) := by
  intro ea hea eb heb hne
  obtain ⟨hkeys, hvals⟩ := GraphBuilder.build_invariants hb
  unfold appearsTogether
  constructor
  · intro hq
    have hcc : ∃ c, MapHas m c ea.id ∧ MapHas m c eb.id := by
      rcases hq with hp | hp
      · exact GraphBuilder.rel_endpoints hp
      · obtain ⟨c, h1, h2⟩ := GraphBuilder.rel_endpoints hp
        exact ⟨c, h2, h1⟩
    obtain ⟨c, h1, h2⟩ := hcc
    rw [GraphBuilder.MapHas_build hb] at h1 h2
    obtain ⟨e1, he1, hid1, hend1⟩ := h1
    obtain ⟨e2, he2, hid2, hend2⟩ := h2
    have he1a : e1 = ea := List.inj_on_of_nodup_map hids he1 hea hid1
    have he2b : e2 = eb := List.inj_on_of_nodup_map hids he2 heb hid2
    subst he1a he2b
    exact ⟨c, hend1, hend2⟩
  · rintro ⟨c, hca, hcb⟩
    have h1 : MapHas m c ea.id := (GraphBuilder.MapHas_build hb).2 ⟨ea, hea, rfl, hca⟩
    have h2 : MapHas m c eb.id := (GraphBuilder.MapHas_build hb).2 ⟨eb, heb, rfl, hcb⟩
    obtain ⟨s₁, hs₁, ha⟩ := h1
    obtain ⟨s₂, hs₂, hbm⟩ := h2
    obtain rfl := GraphBuilder.eq_snd_of_keys_nodup hkeys hs₁ hs₂
    have hlen : 1 < s₁.length := GraphBuilder.one_lt_length_of_two_mem ha hbm hne
    rcases GraphBuilder.pairsOf_complete ha hbm hne with hp | hp
    · exact Or.inl (GraphBuilder.mem_generate.2 ⟨(c, s₁), hs₁, hlen, hp⟩)
    · exact Or.inr (GraphBuilder.mem_generate.2 ⟨(c, s₁), hs₁, hlen, hp⟩)

/-- Witness for C2 on the spec scenario `A = [(0,0),(1,1)]`,
`B = [(1,1),(2,2)]`: the two ids appear together because they share the
endpoint `(1,1)`. -/
theorem endpoint_grouping_witness :
    GraphBuilder._build_connection_map [elemA, elemB] = some mapAB ∧
    appearsTogether 1 2 (GraphBuilder._generate_relationships mapAB) :=
  ⟨by decide,
   (endpoint_grouping [elemA, elemB] mapAB (by decide) (by decide) elemA (by decide)
       elemB (by decide) (by decide)).mpr
     ⟨(1, 1), Or.inr (by decide), Or.inl (by decide)⟩⟩

/-- C3: no generated relationship ever has equal `from` and `to` ids — the
id-sets in the connection map are duplicate-free, so the index pairing never
pairs an id with itself, including for single-point geometries. -/
theorem no_self_edges (els : List Element) (m : GraphBuilder.ConnMap)
    (hb : GraphBuilder._build_connection_map els = some m) :
    ∀ p ∈ GraphBuilder._generate_relationships m, p.1 ≠ p.2 := by
  intro p hp
  obtain ⟨_, hvals⟩ := GraphBuilder.build_invariants hb
  rw [GraphBuilder.mem_generate] at hp
  obtain ⟨kv, hkv, _, hps⟩ := hp
  exact GraphBuilder.ne_of_mem_pairsOf (hvals kv hkv) hps

/-- Witness for C3 on a collection containing a degenerate single-point
geometry that shares its point with another record. -/
theorem no_self_edges_witness :
    GraphBuilder._build_connection_map [elemC, elemD] = some mapCD ∧
    (1, 2) ∈ GraphBuilder._generate_relationships mapCD ∧
    ((1, 2) : Nat × Nat).1 ≠ ((1, 2) : Nat × Nat).2 :=
  ⟨by decide, by decide,
   no_self_edges [elemC, elemD] mapCD (by decide) (1, 2) (by decide)⟩

namespace GraphBuilder

theorem mem_mergeRel {rs : List (Nat × Nat)} {p q : Nat × Nat} :
    q ∈ mergeRel rs p ↔ q ∈ rs ∨ q = p := by
  unfold mergeRel
  split
  · next h =>
    constructor
    · exact Or.inl
    · rintro (hq | rfl)
      · exact hq
      · exact h
  · simp

theorem nodup_mergeRel {rs : List (Nat × Nat)} (h : rs.Nodup) (p : Nat × Nat) :
    (mergeRel rs p).Nodup := by
  unfold mergeRel
  split
  · exact h
  · next hp =>
    rw [List.nodup_append]
    exact ⟨h, List.nodup_singleton p,
      fun a ha hai => hp ((List.mem_singleton.1 hai) ▸ ha)⟩

theorem nodup_foldl_insertRel (ns : List (Nat × Option String))
    (l : List (Nat × Nat)) {rs : List (Nat × Nat)} (h : rs.Nodup) :
    (l.foldl (insertRel ns) rs).Nodup := by
  induction l generalizing rs with
  | nil => exact h
  | cons p rest ih =>
    rw [List.foldl_cons]
    apply ih
    unfold insertRel
    split
    · exact nodup_mergeRel (nodup_mergeRel h _) _
    · exact h

theorem mem_foldl_insertRel {ns : List (Nat × Option String)}
    {l : List (Nat × Nat)} {rs : List (Nat × Nat)} {q : Nat × Nat} :
    q ∈ l.foldl (insertRel ns) rs ↔
      q ∈ rs ∨ ∃ p ∈ l, (hasNode ns p.1 && hasNode ns p.2) = true ∧
        (q = (p.1, p.2) ∨ q = (p.2, p.1)) := by
  induction l generalizing rs with
  | nil => simp
  | cons p rest ih =>
    rw [List.foldl_cons, ih, exists_mem_cons]
    unfold insertRel
    by_cases h : (hasNode ns p.1 && hasNode ns p.2) = true
    · rw [if_pos h]
      simp only [mem_mergeRel]
      constructor
      · rintro (((hq | hq) | hq) | hx)
        · exact Or.inl hq
        · exact Or.inr (Or.inl ⟨h, Or.inl hq⟩)
        · exact Or.inr (Or.inl ⟨h, Or.inr hq⟩)
        · exact Or.inr (Or.inr hx)
      · rintro (hq | ⟨_, hq | hq⟩ | hx)
        · exact Or.inl (Or.inl (Or.inl hq))
        · exact Or.inl (Or.inl (Or.inr hq))
        · exact Or.inl (Or.inr hq)
        · exact Or.inr hx
    · rw [if_neg h]
      constructor
      · rintro (hq | hx)
        · exact Or.inl hq
        · exact Or.inr (Or.inr hx)
      · rintro (hq | ⟨hc, _⟩ | hx)
        · exact Or.inl hq
        · exact absurd hc h
        · exact Or.inr hx

theorem hasNode_iff {ns : List (Nat × Option String)} {i : Nat} :
    hasNode ns i = true ↔ ∃ p ∈ ns, p.1 = i := by
  simp [hasNode]

theorem hasNode_mergeNode {ns : List (Nat × Option String)} {j i : Nat}
    {nm : Option String} :
    hasNode (mergeNode ns j nm) i = true ↔ hasNode ns i = true ∨ i = j := by
  unfold mergeNode
  split
  · next h =>
    rw [hasNode_iff, hasNode_iff]
    constructor
    · rintro ⟨p, hp, hpi⟩
      obtain ⟨p₀, hp₀, rfl⟩ := List.mem_map.1 hp
      refine Or.inl ⟨p₀, hp₀, ?_⟩
      by_cases hj : p₀.1 = j
      · rw [if_pos hj] at hpi
        exact hpi
      · rw [if_neg hj] at hpi
        exact hpi
    · rintro (⟨p, hp, hpi⟩ | rfl)
      · refine ⟨if p.1 = j then (p.1, nm) else p, List.mem_map_of_mem _ hp, ?_⟩
        by_cases hj : p.1 = j
        · rw [if_pos hj]
          exact hpi
        · rw [if_neg hj]
          exact hpi
      · obtain ⟨p, hp, hpj⟩ := hasNode_iff.1 h
        exact ⟨if p.1 = i then (p.1, nm) else p, List.mem_map_of_mem _ hp,
          by rw [if_pos hpj]; exact hpj⟩
  · next h =>
    rw [hasNode_iff, hasNode_iff]
    constructor
    · rintro ⟨p, hp, hpi⟩
      rcases List.mem_append.1 hp with hp' | hp'
      · exact Or.inl ⟨p, hp', hpi⟩
      · rw [List.mem_singleton] at hp'
        subst hp'
        exact Or.inr hpi.symm
    · rintro (⟨p, hp, hpi⟩ | rfl)
      · exact ⟨p, List.mem_append_left _ hp, hpi⟩
      · exact ⟨_, List.mem_append_right _ (List.mem_singleton.2 rfl), rfl⟩

theorem hasNode_foldl_mergeNode {els : List Element}
    {ns : List (Nat × Option String)} {i : Nat} :
    hasNode (els.foldl (fun ns e => mergeNode ns e.id e.name) ns) i = true ↔
      hasNode ns i = true ∨ ∃ e ∈ els, e.id = i := by
  induction els generalizing ns with
  | nil => simp
  | cons e rest ih =>
    rw [List.foldl_cons, ih, hasNode_mergeNode, exists_mem_cons]
    constructor
    · rintro ((hn | hi) | hrest)
      · exact Or.inl hn
      · exact Or.inr (Or.inl hi.symm)
      · exact Or.inr (Or.inr hrest)
    · rintro (hn | hi | hrest)
      · exact Or.inl (Or.inl hn)
      · exact Or.inl (Or.inr hi.symm)
      · exact Or.inr hrest

theorem hasNode_create_nodes {g : GraphState} {els : List Element} {i : Nat} :
    hasNode (_create_nodes g els).nodes i = true ↔
      hasNode g.nodes i = true ∨ ∃ e ∈ els, e.id = i :=
  hasNode_foldl_mergeNode

theorem gen_ids_are_element_ids {els : List Element} {m : ConnMap}
    (hb : _build_connection_map els = some m) {p : Nat × Nat}
    (hp : p ∈ _generate_relationships m) :
    (∃ e ∈ els, e.id = p.1) ∧ ∃ e ∈ els, e.id = p.2 := by
  obtain ⟨c, h1, h2⟩ := rel_endpoints hp
  rw [MapHas_build hb] at h1 h2
  obtain ⟨e1, he1, hid1, _⟩ := h1
  obtain ⟨e2, he2, hid2, _⟩ := h2
  exact ⟨⟨e1, he1, hid1⟩, ⟨e2, he2, hid2⟩⟩

theorem count_le_one_of_nodup {l : List (Nat × Nat)} (h : l.Nodup)
    (q : Nat × Nat) : l.count q ≤ 1 := by
  induction l with
  | nil => simp
  | cons p rest ih =>
    rw [List.nodup_cons] at h
    rw [List.count_cons]
    by_cases hq : (p == q) = true
    · obtain rfl := eq_of_beq hq
      rw [List.count_eq_zero.2 h.1]
      simp
    · rw [if_neg hq]
      simpa using ih h.2

theorem build_graph_rels {els : List Element} {m : ConnMap}
    {g₀ g' : GraphState} (hb : _build_connection_map els = some m)
    (hg : build_graph g₀ els = some g') :
    g'.nodes = (_create_nodes g₀ els).nodes ∧
    g'.rels = (_generate_relationships m).foldl
      (insertRel (_create_nodes g₀ els).nodes) (_create_nodes g₀ els).rels := by
  unfold build_graph _create_relationships at hg
  simp only [hb] at hg
  obtain rfl := Option.some.inj hg
  exact ⟨rfl, rfl⟩

end GraphBuilder

/-- C4: the final relationship set in the graph sink holds each pair at most
once — the Cypher `MERGE` collapses the duplicates of the generated
relationship list — and it holds a pair exactly when some generated
relationship connects the two ids (in either direction), so two records
coinciding at both endpoints still yield a single deduplicated edge. -/
theorem edges_deduplicated (els : List Element) (m : GraphBuilder.ConnMap)
    (g₀ g' : GraphBuilder.GraphState)
    (hb : GraphBuilder._build_connection_map els = some m)
    (hg : GraphBuilder.build_graph (GraphBuilder.cleanup g₀) els = some g') :
    ∀ a b : Nat, g'.rels.count (a, b) ≤ 1 ∧
      ((a, b) ∈ g'.rels ↔
        ∃ p ∈ GraphBuilder._generate_relationships m, p = (a, b) ∨ p = (b, a)) := by
  intro a b
  obtain ⟨hn, hr⟩ := GraphBuilder.build_graph_rels hb hg
  constructor
  · have hnd : g'.rels.Nodup := by
      rw [hr]
      exact GraphBuilder.nodup_foldl_insertRel _ _ List.nodup_nil
    exact GraphBuilder.count_le_one_of_nodup hnd (a, b)
  · rw [hr, GraphBuilder.mem_foldl_insertRel]
    constructor
    · rintro (hq | ⟨p, hp, _, hq⟩)
      · exact absurd hq (List.not_mem_nil _)
      · refine ⟨p, hp, ?_⟩
        rcases hq with hq | hq
        · rw [Prod.mk.eta] at hq
          exact Or.inl hq.symm
        · injection hq with ha hb'
          right
          rw [hb', ha]
    · rintro ⟨p, hp, hq⟩
      right
      refine ⟨p, hp, ?_, ?_⟩
      · obtain ⟨⟨e1, he1, hid1⟩, e2, he2, hid2⟩ :=
          GraphBuilder.gen_ids_are_element_ids hb hp
        rw [Bool.and_eq_true]
        constructor
        · rw [GraphBuilder.hasNode_create_nodes]
          exact Or.inr ⟨e1, he1, hid1⟩
        · rw [GraphBuilder.hasNode_create_nodes]
          exact Or.inr ⟨e2, he2, hid2⟩
      · rcases hq with rfl | rfl
        · exact Or.inl rfl
        · exact Or.inr rfl

/-- Witness for C4 on two records sharing both endpoint coordinates: the
generated relationship list contains the pair twice, the final sink holds the
edge exactly once. -/
theorem edges_deduplicated_witness :
    GraphBuilder._build_connection_map [elemE, elemF] = some mapEF ∧
    GraphBuilder.build_graph (GraphBuilder.cleanup ⟨[], []⟩) [elemE, elemF] =
      some graphEF ∧
    (graphEF.rels.count (1, 2) ≤ 1 ∧
      ((1, 2) ∈ graphEF.rels ↔
        ∃ p ∈ GraphBuilder._generate_relationships mapEF, p = (1, 2) ∨ p = (2, 1))) :=
  ⟨by decide, by decide,
   edges_deduplicated [elemE, elemF] mapEF ⟨[], []⟩ graphEF (by decide) (by decide) 1 2⟩

/-- C6 (counterexample): a `"way"` element with no geometry key is not
filtered out by `process_data`; it is emitted with an empty coordinate
sequence and enters the pipeline. -/
theorem empty_geometry_not_filtered :
    DataProcessor.process_data [⟨"way", 7, none, none⟩] = [⟨7, [], none⟩] ∧
    (⟨7, [], none⟩ : Element).geometry = [] := by
  decide

/-- C6 (amended): `process_data` keeps exactly the elements whose `type` is
`"way"`, processing each one; it performs no filtering on the geometry, so a
`"way"` element with a missing or empty geometry is emitted with an empty
coordinate sequence rather than being dropped. -/
theorem process_data_keeps_every_way (raw : List RawElement) :
    DataProcessor.process_data raw =
      (raw.filter fun r => r.type = "way").map DataProcessor._process := by
  induction raw with
  | nil => rfl
  | cons e rest ih =>
    by_cases h : e.type = "way" <;>
      simp [DataProcessor.process_data, List.filter_cons, h, ih]

/-- C7: the snapshot differ is reflexive (`changed(X, X) = false`), reports
change for any collection against an absent baseline, and reports change
whenever the two collections differ in any way (membership, geometry, name or
order — i.e. whenever they are unequal as sequences). -/
theorem diff_reflexive_absent_sensitive :
    (∀ X : List Element, DataProcessor.is_data_changed X (some X) = false) ∧
    (∀ X : List Element, X ≠ [] → DataProcessor.is_data_changed X none = true) ∧
    (∀ X Y : List Element, X ≠ Y → DataProcessor.is_data_changed X (some Y) = true) := by
  refine ⟨fun X => ?_, fun X _ => ?_, fun X Y h => ?_⟩ <;>
    simp [DataProcessor.is_data_changed, *]

/-- Witness for C7 at concrete collections. -/
theorem diff_reflexive_absent_sensitive_witness :
    DataProcessor.is_data_changed [⟨1, [(0, 0), (1, 1)], none⟩] none = true ∧
    DataProcessor.is_data_changed [⟨1, [(0, 0), (1, 1)], none⟩] (some []) = true :=
  ⟨diff_reflexive_absent_sensitive.2.1 _ (by decide),
   diff_reflexive_absent_sensitive.2.2 _ [] (by decide)⟩

/-- C8 (counterexample): an `OSError` hitting the snapshot store crosses the
boundary unwrapped — `JsonDataStorage` has no exception handler — so it is
not one of the named application error kinds and falls to the generic
`except Exception` handler of `main`. -/
theorem snapshot_store_error_unwrapped :
    JsonDataStorage.wrapError .osError = .osError ∧
    isNamedAppError (JsonDataStorage.wrapError .osError) = false ∧
    dispatch (JsonDataStorage.wrapError .osError) = .unexpected := by
  decide

/-- C8 (amended): the relational and graph sinks wrap every failure into
`DatabaseError` / `GraphBuilderError`; the geocoder wraps its two service
errors into `GeocodingError` and the OSM downloader wraps
`requests.RequestException` into `OsmApiError`; the snapshot store wraps
nothing — its failures propagate unchanged. -/
theorem boundary_wrapping (e : PyExc) :
    SqlDataStorage.wrapError e = .databaseError ∧
    GraphBuilder.wrapError e = .graphBuilderError ∧
    isNamedAppError (SqlDataStorage.wrapError e) = true ∧
    isNamedAppError (GraphBuilder.wrapError e) = true ∧
    Geocoder.wrapError .geocoderTimedOut = .geocodingError ∧
    Geocoder.wrapError .geocoderUnavailable = .geocodingError ∧
    OSMDownloader.wrapError .requestException = .osmApiError ∧
    JsonDataStorage.wrapError e = e :=
  ⟨rfl, rfl, rfl, rfl, by decide, by decide, by decide, rfl⟩

/-- C1 (counterexample): a run in which `sql_storage.cleanup` raises ends with
the snapshot file holding the freshly processed collection, not the collection
it held at the start — `main` writes the JSON snapshot before the relational
and graph sink steps. -/
theorem snapshot_updated_despite_sql_failure :
    envC1.sqlCleanupErr = some .psycopg2Error ∧
    Step.sqlCleanupS ∈ (runMain envC1).trace ∧
    (runMain envC1).outcome = .failed .database ∧
    (runMain envC1).snapshot ≠ envC1.snapshot0 := by
  decide

/-- C1 (amended): the snapshot file is rewritten before the relational and
graph sink steps, so every run that reaches the relational sink — in
particular every run in which one of `sql_storage.cleanup`,
`sql_storage.save_data`, `graph_builder.cleanup` or `graph_builder.build_graph`
raises — ends with the snapshot holding the freshly processed collection
rather than the one held at the start. -/
theorem snapshot_updated_before_sinks (env : Env)
    (h : Step.sqlCleanupS ∈ (runMain env).trace) :
    (runMain env).snapshot = some (DataProcessor.process_data env.rawData) := by
  cases hve : env.validateErr with
  | some e => simp [runMain, hve] at h
  | none =>
  cases hge : env.geocodeErr with
  | some e => simp [runMain, hve, hge] at h
  | none =>
  cases hde : env.downloadErr with
  | some e => simp [runMain, hve, hge, hde] at h
  | none =>
  cases hgde : env.getDataErr with
  | some e => simp [runMain, hve, hge, hde, hgde] at h
  | none =>
  by_cases hch : DataProcessor.is_data_changed (DataProcessor.process_data env.rawData)
      env.snapshot0 = true
  · cases hjs : env.jsonSaveErr with
    | some e => simp [runMain, hve, hge, hde, hgde, hch, hjs] at h
    | none =>
    cases hsc : env.sqlCleanupErr with
    | some e => simp [runMain, hve, hge, hde, hgde, hch, hjs, hsc]
    | none =>
    cases hss : env.sqlSaveErr with
    | some e => simp [runMain, hve, hge, hde, hgde, hch, hjs, hsc, hss]
    | none =>
    cases hgc : env.graphCleanupErr with
    | some e => simp [runMain, hve, hge, hde, hgde, hch, hjs, hsc, hss, hgc]
    | none =>
    cases hgb : env.graphBuildErr with
    | some e => simp [runMain, hve, hge, hde, hgde, hch, hjs, hsc, hss, hgc, hgb]
    | none =>
    cases hbg : GraphBuilder.build_graph (GraphBuilder.cleanup env.graph0)
        (DataProcessor.process_data env.rawData) with
    | none => simp [runMain, hve, hge, hde, hgde, hch, hjs, hsc, hss, hgc, hgb, hbg]
    | some g2 => simp [runMain, hve, hge, hde, hgde, hch, hjs, hsc, hss, hgc, hgb, hbg]
  · simp [runMain, hve, hge, hde, hgde, hch] at h

/-- Witness for the amended C1: a run failing at the relational insert step
still ends with the snapshot holding the new collection. -/
theorem snapshot_updated_before_sinks_witness :
    Step.sqlCleanupS ∈ (runMain envC1b).trace ∧
    (runMain envC1b).snapshot = some (DataProcessor.process_data envC1b.rawData) :=
  ⟨by decide, snapshot_updated_before_sinks envC1b (by decide)⟩

/-- C5: if the relational sink replace is set to fail (cleanup or insert),
the graph sink steps are never executed in that run, and a run that reached
the relational cleanup terminates reporting the database error kind. -/
theorem sql_failure_blocks_graph (env : Env)
    (h : env.sqlCleanupErr ≠ none ∨ env.sqlSaveErr ≠ none) :
    Step.graphCleanupS ∉ (runMain env).trace ∧
    Step.graphBuildS ∉ (runMain env).trace ∧
    (Step.sqlCleanupS ∈ (runMain env).trace →
      (runMain env).outcome = .failed .database) := by
  cases hve : env.validateErr with
  | some e => simp [runMain, hve]
  | none =>
  cases hge : env.geocodeErr with
  | some e => simp [runMain, hve, hge]
  | none =>
  cases hde : env.downloadErr with
  | some e => simp [runMain, hve, hge, hde]
  | none =>
  cases hgde : env.getDataErr with
  | some e => simp [runMain, hve, hge, hde, hgde]
  | none =>
  by_cases hch : DataProcessor.is_data_changed (DataProcessor.process_data env.rawData)
      env.snapshot0 = true
  · cases hjs : env.jsonSaveErr with
    | some e => simp [runMain, hve, hge, hde, hgde, hch, hjs]
    | none =>
    cases hsc : env.sqlCleanupErr with
    | some e =>
      simp [runMain, hve, hge, hde, hgde, hch, hjs, hsc, SqlDataStorage.wrapError,
        dispatch]
    | none =>
    cases hss : env.sqlSaveErr with
    | some e =>
      simp [runMain, hve, hge, hde, hgde, hch, hjs, hsc, hss,
        SqlDataStorage.wrapError, dispatch]
    | none =>
      rcases h with h | h
      · exact absurd hsc h
      · exact absurd hss h
  · simp [runMain, hve, hge, hde, hgde, hch]

/-- Witness for C5: with the relational cleanup set to fail, the graph steps
are absent from the trace and the run reports the database error. -/
theorem sql_failure_blocks_graph_witness :
    (envC5.sqlCleanupErr ≠ none ∨ envC5.sqlSaveErr ≠ none) ∧
    (Step.graphCleanupS ∉ (runMain envC5).trace ∧
      Step.graphBuildS ∉ (runMain envC5).trace ∧
      (Step.sqlCleanupS ∈ (runMain envC5).trace →
        (runMain envC5).outcome = .failed .database)) :=
  ⟨Or.inl (by decide), sql_failure_blocks_graph envC5 (Or.inl (by decide))⟩

/-- C10: an absent snapshot makes the diff gate pass for every current
collection, the empty one included; a fault-free first run over an empty
normalized collection executes every sink step, empties both sinks and
persists the empty collection as the new snapshot. -/
theorem first_run_empty_collection (env : Env)
    (hsnap : env.snapshot0 = none) (hv : env.validateErr = none)
    (hg : env.geocodeErr = none) (hd : env.downloadErr = none)
    (hgd : env.getDataErr = none) (hjs : env.jsonSaveErr = none)
    (hsc : env.sqlCleanupErr = none) (hss : env.sqlSaveErr = none)
    (hgc : env.graphCleanupErr = none) (hgb : env.graphBuildErr = none)
    (hproc : DataProcessor.process_data env.rawData = []) :
    (∀ cur : List Element, DataProcessor.is_data_changed cur none = true) ∧
    (runMain env).outcome = .success ∧
    (runMain env).snapshot = some [] ∧
    (runMain env).sqlRows = [] ∧
    (runMain env).graph = ⟨[], []⟩ ∧
    Step.sqlCleanupS ∈ (runMain env).trace ∧
    Step.sqlSaveS ∈ (runMain env).trace ∧
    Step.graphCleanupS ∈ (runMain env).trace ∧
    Step.graphBuildS ∈ (runMain env).trace := by
  have hch : DataProcessor.is_data_changed [] none = true := by decide
  constructor
  · intro cur
    simp [DataProcessor.is_data_changed]
  · simp [runMain, hv, hg, hd, hgd, hsnap, hjs, hsc, hss, hgc, hgb, hproc, hch,
      GraphBuilder.build_graph, GraphBuilder._create_relationships,
      GraphBuilder._build_connection_map, GraphBuilder._create_nodes,
      GraphBuilder.cleanup, GraphBuilder._generate_relationships,
      SqlDataStorage.cleanup, SqlDataStorage.save_data]

/-- Witness for C10: a concrete fault-free first run whose raw data holds no
`way` element. -/
theorem first_run_empty_collection_witness :
    envC10.snapshot0 = none ∧
    DataProcessor.process_data envC10.rawData = [] ∧
    ((runMain envC10).outcome = .success ∧ (runMain envC10).snapshot = some [] ∧
      (runMain envC10).sqlRows = [] ∧
      (runMain envC10).graph = (⟨[], []⟩ : GraphBuilder.GraphState)) :=
  ⟨rfl, by decide,
   (first_run_empty_collection envC10 rfl rfl rfl rfl rfl rfl rfl rfl rfl rfl
       (by decide)).2.1,
   (first_run_empty_collection envC10 rfl rfl rfl rfl rfl rfl rfl rfl rfl rfl
       (by decide)).2.2.1,
   (first_run_empty_collection envC10 rfl rfl rfl rfl rfl rfl rfl rfl rfl rfl
       (by decide)).2.2.2.1,
   (first_run_empty_collection envC10 rfl rfl rfl rfl rfl rfl rfl rfl rfl rfl
       (by decide)).2.2.2.2.1⟩

/-- C9: the clear-then-load sequence of each sink is idempotent — running it a
second time on the states it produced yields those same states, because each
sink's clear step discards all prior state. -/
theorem sync_idempotent (rows : List SqlDataStorage.SqlRow)
    (g g' : GraphBuilder.GraphState) (data : List Element)
    (h : graphSync g data = some g') :
    sqlSync (sqlSync rows data) data = sqlSync rows data ∧
    graphSync g' data = some g' :=
  ⟨rfl, h⟩

/-- Witness for C9 at a concrete record collection. -/
theorem sync_idempotent_witness :
    graphSync (⟨[], []⟩ : GraphBuilder.GraphState) [⟨1, [(0, 0), (1, 1)], none⟩] =
      some ⟨[(1, none)], []⟩ ∧
    (sqlSync (sqlSync [] [⟨1, [(0, 0), (1, 1)], none⟩]) [⟨1, [(0, 0), (1, 1)], none⟩] =
        sqlSync [] [⟨1, [(0, 0), (1, 1)], none⟩] ∧
      graphSync (⟨[(1, none)], []⟩ : GraphBuilder.GraphState)
          [⟨1, [(0, 0), (1, 1)], none⟩] =
        some ⟨[(1, none)], []⟩) :=
  ⟨by decide,
   sync_idempotent [] ⟨[], []⟩ ⟨[(1, none)], []⟩ [⟨1, [(0, 0), (1, 1)], none⟩]
     (by decide)⟩

end RiverData
